import Mathlib

/-!
# OpenSCAD core: Geometry, Renderer and EvalContext

A shallow embedding of `src/Geometry.h`, `src/renderer.h` and
`src/evalcontext.cc`, followed by the properties proved about them.

Conventions of the embedding:

* A C++ `int` is an `Int` in the range `INT_MIN .. INT_MAX` (32 bits); an
  `unsigned int` is a `Nat` below `2 ^ 32`. The conversion between the two is
  written out as a reduction modulo `2 ^ 32`.
* A nullable pointer is an `Option`; `NULL` is `none`.
* An operation that can hit a failed `assert`, an out-of-range `operator[]`
  or a null dereference returns an `Except Failure _`.
-/

namespace OpenSCAD

/-! ## Machine integers -/

/-- Smallest value of a C++ `int` (32 bits). -/
def INT_MIN : Int := -2147483648

/-- Largest value of a C++ `int` (32 bits). -/
def INT_MAX : Int := 2147483647

/-- Number of values of an `unsigned int` (32 bits). -/
def UINT_MODULUS : Int := 4294967296

/-- The integers a C++ `int` can hold. -/
def isInt (c : Int) : Prop := INT_MIN ≤ c ∧ c ≤ INT_MAX

instance (c : Int) : Decidable (isInt c) := by
  unfold isInt; infer_instance

/-- Conversion `int → unsigned int`: the unique value congruent modulo `2 ^ 32`. -/
def toUnsigned (c : Int) : Nat := (c % UINT_MODULUS).toNat

/-! ## Geometry.h -/

/-- The class `Geometry`: the one data member `convexity` (an `int`), and
`derived`, the state of the concrete subclass that implements the pure
virtual queries (`memsize`, `getBoundingBox`, `dump`, `getDimension`,
`isEmpty`). -/
structure Geometry (D : Type) where
  convexity : Int
  derived : D
deriving DecidableEq, Repr

/-- The constructor `Geometry() : convexity(1) {}`, run for a subclass whose own state is `d`. -/
def Geometry.ctor {D : Type} (d : D) : Geometry D :=
  { convexity := 1, derived := d }

/-- The member `unsigned int getConvexity() const { return convexity; }`: the
`int` member is converted to the `unsigned int` return type. -/
def Geometry.getConvexity {D : Type} (g : Geometry D) : Nat :=
  toUnsigned g.convexity

/-- The member `void setConvexity(int c) { this->convexity = c; }`. -/
def Geometry.setConvexity {D : Type} (g : Geometry D) (c : Int) : Geometry D :=
  { g with convexity := c }

/-! ## renderer.h -/

/-- The preprocessor constant `#define CSGMODE_DIFFERENCE_FLAG 0x10`. -/
def CSGMODE_DIFFERENCE_FLAG : Nat := 0x10

/-- The enumeration `Renderer::csgmode_e`. -/
inductive csgmode_e where
  | CSGMODE_NONE
  | CSGMODE_NORMAL
  | CSGMODE_DIFFERENCE
  | CSGMODE_BACKGROUND
  | CSGMODE_BACKGROUND_DIFFERENCE
  | CSGMODE_HIGHLIGHT
  | CSGMODE_HIGHLIGHT_DIFFERENCE
deriving DecidableEq, Repr

/-- The integer value of each `csgmode_e` enumerator, with the initialiser
expressions of the source (`|` is bitwise or). -/
def csgmode_e.val : csgmode_e → Nat
  | .CSGMODE_NONE => 0x00
  | .CSGMODE_NORMAL => 0x01
  | .CSGMODE_DIFFERENCE => 0x01 ||| CSGMODE_DIFFERENCE_FLAG
  | .CSGMODE_BACKGROUND => 0x02
  | .CSGMODE_BACKGROUND_DIFFERENCE => 0x02 ||| CSGMODE_DIFFERENCE_FLAG
  | .CSGMODE_HIGHLIGHT => 0x03
  | .CSGMODE_HIGHLIGHT_DIFFERENCE => 0x03 ||| CSGMODE_DIFFERENCE_FLAG

/-- All enumerators of `csgmode_e`, in declaration order. -/
def csgmode_e.all : List csgmode_e :=
  [.CSGMODE_NONE, .CSGMODE_NORMAL, .CSGMODE_DIFFERENCE, .CSGMODE_BACKGROUND,
   .CSGMODE_BACKGROUND_DIFFERENCE, .CSGMODE_HIGHLIGHT, .CSGMODE_HIGHLIGHT_DIFFERENCE]

/-- The test `m & CSGMODE_DIFFERENCE_FLAG`. -/
def csgmode_e.differenceBits (m : csgmode_e) : Nat :=
  m.val &&& CSGMODE_DIFFERENCE_FLAG

/-- The expression `m & ~CSGMODE_DIFFERENCE_FLAG` on 32-bit values: the flag bit cleared. -/
def csgmode_e.clearDifference (m : csgmode_e) : Nat :=
  m.val &&& (0xFFFFFFFF ^^^ CSGMODE_DIFFERENCE_FLAG)

/-- The enumeration `Renderer::ColorMode`. -/
inductive ColorMode where
  | COLORMODE_NONE
  | COLORMODE_MATERIAL
  | COLORMODE_CUTOUT
  | COLORMODE_HIGHLIGHT
  | COLORMODE_BACKGROUND
  | COLORMODE_MATERIAL_EDGES
  | COLORMODE_CUTOUT_EDGES
  | COLORMODE_HIGHLIGHT_EDGES
  | COLORMODE_BACKGROUND_EDGES
deriving DecidableEq, Repr

/-- All enumerators of `ColorMode`, in declaration order. -/
def ColorMode.all : List ColorMode :=
  [.COLORMODE_NONE, .COLORMODE_MATERIAL, .COLORMODE_CUTOUT, .COLORMODE_HIGHLIGHT,
   .COLORMODE_BACKGROUND, .COLORMODE_MATERIAL_EDGES, .COLORMODE_CUTOUT_EDGES,
   .COLORMODE_HIGHLIGHT_EDGES, .COLORMODE_BACKGROUND_EDGES]

/-- The integer value of each `ColorMode` enumerator: no initialisers, so they count up from 0. -/
def ColorMode.val : ColorMode → Nat
  | .COLORMODE_NONE => 0
  | .COLORMODE_MATERIAL => 1
  | .COLORMODE_CUTOUT => 2
  | .COLORMODE_HIGHLIGHT => 3
  | .COLORMODE_BACKGROUND => 4
  | .COLORMODE_MATERIAL_EDGES => 5
  | .COLORMODE_CUTOUT_EDGES => 6
  | .COLORMODE_HIGHLIGHT_EDGES => 7
  | .COLORMODE_BACKGROUND_EDGES => 8

/-- The identifier of each `ColorMode` enumerator, as spelled in the source. -/
def ColorMode.ident : ColorMode → String
  | .COLORMODE_NONE => "COLORMODE_NONE"
  | .COLORMODE_MATERIAL => "COLORMODE_MATERIAL"
  | .COLORMODE_CUTOUT => "COLORMODE_CUTOUT"
  | .COLORMODE_HIGHLIGHT => "COLORMODE_HIGHLIGHT"
  | .COLORMODE_BACKGROUND => "COLORMODE_BACKGROUND"
  | .COLORMODE_MATERIAL_EDGES => "COLORMODE_MATERIAL_EDGES"
  | .COLORMODE_CUTOUT_EDGES => "COLORMODE_CUTOUT_EDGES"
  | .COLORMODE_HIGHLIGHT_EDGES => "COLORMODE_HIGHLIGHT_EDGES"
  | .COLORMODE_BACKGROUND_EDGES => "COLORMODE_BACKGROUND_EDGES"

/-- The five base colour modes: the enumerators without the `_EDGES` suffix. -/
def ColorMode.baseModes : List ColorMode :=
  [.COLORMODE_NONE, .COLORMODE_MATERIAL, .COLORMODE_CUTOUT, .COLORMODE_HIGHLIGHT,
   .COLORMODE_BACKGROUND]

/-- Enumerator `e` is the edges variant of enumerator `b`: its identifier is
that of `b` followed by `_EDGES`. -/
def ColorMode.isEdgesVariantOf (e b : ColorMode) : Prop :=
  e.ident = b.ident ++ "_EDGES"

instance (e b : ColorMode) : Decidable (ColorMode.isEdgesVariantOf e b) := by
  unfold ColorMode.isEdgesVariantOf; infer_instance

/-! ## evalcontext.cc -/

/-- The ways an operation of this file can fail instead of returning. -/
inductive Failure where
  /-- The condition of an `assert(...)` was false. -/
  | assertion
  /-- An `operator[]` of a `std::vector` was applied past the end (undefined behaviour). -/
  | outOfRange
  /-- A member was called through a null pointer (undefined behaviour). -/
  | nullDereference
deriving DecidableEq, Repr

/-- Number of values of a `size_t` (64 bits). -/
def SIZE_MODULUS : Nat := 18446744073709551616

/-- Modelled from the spec: the typedef `Assignment` is declared outside the
sources at hand. It is the pair of an argument name (`first`, empty for a
positional argument) and a pointer to the unevaluated expression (`second`,
which may be null), as `evalcontext.cc` uses it. -/
structure Assignment (Expression : Type) where
  first : String
  second : Option Expression
deriving DecidableEq, Repr

/-- Modelled from the spec: the class `LocalScope` (localscope.h) is declared
outside the sources at hand. Only its member `children`, the vector of
pointers to the child instantiation nodes, is used here. -/
structure LocalScope (ModuleInstantiation : Type) where
  children : List (Option ModuleInstantiation)
deriving DecidableEq, Repr

/-- Modelled from the spec: the class `Context` (context.h), base class of
`EvalContext`, is declared outside the sources at hand. `variables_` is the
member `variables` (a word Lean reserves), the map from names to values, held
as the list of its bindings; `parent` is the
back-reference to the enclosing context, held as the address it stores since
nothing here follows it; `document_path` is the originating file. -/
structure Context (Value : Type) where
  variables_ : List (String × Value)
  parent : Option Nat
  document_path : String
deriving DecidableEq, Repr

/-- Modelled from the spec: the class `EvalContext` (evalcontext.h) is declared
outside the sources at hand. It adds to `Context` the call arguments in
call-site order and the pointer to the attached scope, which may be null. -/
structure EvalContext (Expression Value ModuleInstantiation : Type) extends Context Value where
  eval_arguments : List (Assignment Expression)
  scope : Option (LocalScope ModuleInstantiation)
deriving DecidableEq, Repr

/-- The object a non-null `const Context *` points to: a plain `Context` or,
through the base-class conversion, an `EvalContext`. -/
inductive ContextRef (Expression Value ModuleInstantiation : Type) where
  | base (c : Context Value)
  | eval (c : EvalContext Expression Value ModuleInstantiation)
deriving DecidableEq, Repr

/-- Modelled from the spec: the class `Module` (module.h) is declared outside
the sources at hand. Only its member `definition_arguments`, the declared
arguments, is used here. -/
structure Module (Expression : Type) where
  definition_arguments : List (Assignment Expression)
deriving DecidableEq, Repr

/-- The object a non-null `const AbstractModule *` points to: a `Module`, for
which `dynamic_cast<const Module*>` succeeds, or another kind of module, for
which it yields null. -/
inductive AbstractModule (Expression : Type) where
  | Module (m : Module Expression)
  | other
deriving DecidableEq, Repr

/-- What a call does besides returning: a line handed to `PRINT`, or a call of
`Expression::evaluate` on an expression with a context. -/
inductive Event (Expression Value ModuleInstantiation : Type) where
  | print (msg : String)
  | evaluate (e : Expression) (ctx : ContextRef Expression Value ModuleInstantiation)
deriving DecidableEq, Repr

/-- A call that logs and evaluates: the events in the order they happen, and
the value returned or the failure that ended the call. -/
structure Outcome (Expression Value ModuleInstantiation α : Type) where
  events : List (Event Expression Value ModuleInstantiation)
  result : Except Failure α

/-- Modelled from the spec: the collaborators `evalcontext.cc` calls and that
are defined outside the sources at hand. `evaluate` is
`Expression::evaluate(const Context *)`, `undefined` is the
default-constructed `Value()`, `name` is `ModuleInstantiation::name()`.
The remaining fields say how the dump writes what it is given: `fmtPtr` the
rendering of an address (null included), `addrExpr` and `addrInst` the address
of an expression and of an instantiation node, `fmtValue` the rendering of a
`Value`. -/
structure Collaborators (Expression Value ModuleInstantiation : Type) where
  evaluate : Expression → ContextRef Expression Value ModuleInstantiation → Value
  undefined : Value
  name : ModuleInstantiation → String
  fmtPtr : Option Nat → String
  addrExpr : Expression → Nat
  addrInst : ModuleInstantiation → Nat
  fmtValue : Value → String

section EvalContextOps

variable {Expression Value ModuleInstantiation : Type}

/-- The member `EvalContext::getArgName(size_t i) const`:
`assert(i < eval_arguments.size()); return eval_arguments[i].first;`. -/
def EvalContext.getArgName (this : EvalContext Expression Value ModuleInstantiation)
    (i : Nat) : Except Failure String :=
  if h : i < this.eval_arguments.length then
    .ok (this.eval_arguments.get ⟨i, h⟩).first
  else
    .error .assertion

/-- The line `PRINTB("~~~~:%i", (i + 1));` of `getArgValue`: the message
printed, with `i + 1` computed in `size_t`. -/
def argAccessMessage (i : Nat) : String :=
  "~~~~:" ++ toString ((i + 1) % SIZE_MODULUS)

/-- The member `EvalContext::getArgValue(size_t i, const Context *ctx) const`:
the access is logged, the index asserted, and the expression of argument `i`,
when there is one, evaluated in `ctx ? ctx : this`; without an expression the
result is `Value()`. -/
def EvalContext.getArgValue (env : Collaborators Expression Value ModuleInstantiation)
    (this : EvalContext Expression Value ModuleInstantiation) (i : Nat)
    (ctx : Option (ContextRef Expression Value ModuleInstantiation)) :
    Outcome Expression Value ModuleInstantiation Value :=
  let log := [Event.print (argAccessMessage i)]
  if h : i < this.eval_arguments.length then
    let arg := this.eval_arguments.get ⟨i, h⟩
    match arg.second with
    | some e =>
      let target := match ctx with
        | some c => c
        | none => ContextRef.eval this
      { events := log ++ [Event.evaluate e target], result := .ok (env.evaluate e target) }
    | none => { events := log, result := .ok env.undefined }
  else
    { events := log, result := .error .assertion }

/-- The member `EvalContext::numChildren() const`:
`return scope ? scope->children.size() : 0;`. -/
def EvalContext.numChildren (this : EvalContext Expression Value ModuleInstantiation) : Nat :=
  match this.scope with
  | some s => s.children.length
  | none => 0

/-- The member `EvalContext::getChild(size_t i) const`:
`return scope ? scope->children[i] : NULL;`. The vector is indexed without a
check, so an index past its end is a failure of the call. -/
def EvalContext.getChild (this : EvalContext Expression Value ModuleInstantiation)
    (i : Nat) : Except Failure (Option ModuleInstantiation) :=
  match this.scope with
  | some s =>
    if h : i < s.children.length then .ok (s.children.get ⟨i, h⟩) else .error .outOfRange
  | none => .ok none

/-- Modelled from the spec: the type of the member `variables` is declared
outside the sources at hand; it is a keyed map from `std::string` to `Value`.
This is its `operator[]`, as `variables[key]` in a non-const member function:
the value bound to `key`, and for a key without a binding a binding to
`Value()` is inserted first and that value returned. -/
def subscript (undef : Value) (vars : List (String × Value)) (key : String) :
    Value × List (String × Value) :=
  match vars.lookup key with
  | some v => (v, vars)
  | none => (undef, vars ++ [(key, undef)])

/-- First line of `dump`: the `if (inst) ... else ...` that writes the
addresses of this context and its parent and, with an instantiation given, its
name and address. `self` is the address `this`. -/
def dumpHeader (env : Collaborators Expression Value ModuleInstantiation) (self : Nat)
    (this : EvalContext Expression Value ModuleInstantiation)
    (inst : Option ModuleInstantiation) : String :=
  match inst with
  | some n =>
    "EvalContext " ++ env.fmtPtr (some self) ++ " (" ++ env.fmtPtr this.parent ++ ") for "
      ++ env.name n ++ " inst (" ++ env.fmtPtr (some (env.addrInst n)) ++ ")"
  | none => "Context: " ++ env.fmtPtr (some self) ++ " (" ++ env.fmtPtr this.parent ++ ")"

/-- The loop of `dump` over `eval_arguments`: name and expression pointer of each. -/
def dumpEvalArgs (env : Collaborators Expression Value ModuleInstantiation) :
    List (Assignment Expression) → String
  | [] => ""
  | a :: rest =>
    "    " ++ a.first ++ " = " ++ env.fmtPtr (a.second.map env.addrExpr) ++ dumpEvalArgs env rest

/-- The loop of `dump` over `scope->children`: `ch->name()` of each, which
fails on a null child. -/
def dumpChildren (env : Collaborators Expression Value ModuleInstantiation) :
    List (Option ModuleInstantiation) → Except Failure String
  | [] => .ok ""
  | none :: _ => .error .nullDereference
  | some ch :: rest =>
    match dumpChildren env rest with
    | .ok s => .ok ("      " ++ env.name ch ++ s)
    | .error f => .error f

/-- The loop of `dump` over `m->definition_arguments`: each declared name with
`variables[arg.first]`. The map is threaded through, since `operator[]` may
insert. -/
def dumpModuleArgs (env : Collaborators Expression Value ModuleInstantiation) :
    List (Assignment Expression) → List (String × Value) → String × List (String × Value)
  | [], vars => ("", vars)
  | arg :: rest, vars =>
    let r := subscript env.undefined vars arg.first
    let t := dumpModuleArgs env rest r.2
    ("    " ++ arg.first ++ " = " ++ env.fmtValue r.1 ++ t.1, t.2)

/-- The member `EvalContext::dump(const AbstractModule *mod, const
ModuleInstantiation *inst)` (compiled under `DEBUG`; not a `const` member):
the text it returns together with the context as the call leaves it. -/
def EvalContext.dump (env : Collaborators Expression Value ModuleInstantiation) (self : Nat)
    (this : EvalContext Expression Value ModuleInstantiation)
    (mod : Option (AbstractModule Expression)) (inst : Option ModuleInstantiation) :
    Except Failure (String × EvalContext Expression Value ModuleInstantiation) :=
  let s1 := dumpHeader env self this inst ++ "  document path: " ++ this.document_path
    ++ "  eval args:" ++ dumpEvalArgs env this.eval_arguments
  let children : Except Failure String :=
    match this.scope with
    | some sc =>
      if 0 < sc.children.length then
        match dumpChildren env sc.children with
        | .ok s => .ok ("    children:" ++ s)
        | .error f => .error f
      else .ok ""
    | none => .ok ""
  match children with
  | .error f => .error f
  | .ok s2 =>
    match mod with
    | some (.Module m) =>
      let r := dumpModuleArgs env m.definition_arguments this.variables_
      .ok (s1 ++ s2 ++ "  module args:" ++ r.1, { this with variables_ := r.2 })
    | _ => .ok (s1 ++ s2, this)

end EvalContextOps

/-! ## Concrete instances used to exercise the definitions -/

/-- A small evaluator: an expression is a variable name, a value is a string,
and evaluation looks the name up in the bindings of the context it is given. -/
def lookupEnv : Collaborators String String String where
  evaluate := fun e ctx =>
    match ctx with
    | .base c => (c.variables_.lookup e).getD "undef"
    | .eval c => (c.variables_.lookup e).getD "undef"
  undefined := "undef"
  name := fun n => n
  fmtPtr := fun a =>
    match a with
    | some n => toString n
    | none => "0"
  addrExpr := fun e => e.length
  addrInst := fun n => n.length
  fmtValue := fun v => v

/-- A call `f(a = x, y, <no expression>)` made from a context that binds `x`,
with two children attached. -/
def sampleCall : EvalContext String String String where
  variables_ := [("x", "1")]
  parent := some 4096
  document_path := "/tmp/a.scad"
  eval_arguments := [⟨"a", some "x"⟩, ⟨"", some "y"⟩, ⟨"b", none⟩]
  scope := some ⟨[some "cube", some "sphere"]⟩

/-- The same call from a context with no scope attached. -/
def sampleCallNoScope : EvalContext String String String :=
  { sampleCall with scope := none }

/-- A context other than the caller: it binds `x` differently. -/
def calleeContext : ContextRef String String String :=
  .base { variables_ := [("x", "7")], parent := none, document_path := "" }

/-- A context with no bindings, no arguments and no scope. -/
def emptyContext : EvalContext String String String where
  variables_ := []
  parent := none
  document_path := ""
  eval_arguments := []
  scope := none

/-- A user module that declares one argument, `x`, without a default. -/
def moduleWithX : AbstractModule String :=
  .Module ⟨[⟨"x", none⟩]⟩

/-! ## Properties of Geometry -/

/-- For an `int`, the `unsigned int` it converts to, read as an integer, is the residue modulo `2 ^ 32`. -/
theorem toUnsigned_cast (c : Int) : (toUnsigned c : Int) = c % 4294967296 := by
  unfold toUnsigned UINT_MODULUS
  omega

/-- An `int` converts to a positive `unsigned int` exactly when it is not 0. -/
theorem toUnsigned_pos_iff (c : Int) (hc : isInt c) : 1 ≤ toUnsigned c ↔ c ≠ 0 := by
  unfold isInt INT_MIN INT_MAX at hc
  unfold toUnsigned UINT_MODULUS
  omega

/-- After a run of `setConvexity` calls the member holds the last argument, or
its old value when there was no call; the subclass state is as before. -/
theorem foldl_setConvexity {D : Type} (cs : List Int) (g : Geometry D) :
    (cs.foldl Geometry.setConvexity g).convexity = cs.getLast?.getD g.convexity ∧
    (cs.foldl Geometry.setConvexity g).derived = g.derived := by
  induction cs generalizing g with
  | nil => simp
  | cons c rest ih =>
    have h := ih (g.setConvexity c)
    simp only [List.foldl_cons]
    refine ⟨?_, h.2⟩
    rw [h.1]
    cases rest with
    | nil => simp [Geometry.setConvexity]
    | cons c2 rest2 =>
      rw [List.getLast?_cons_cons]
      cases hl : (c2 :: rest2).getLast? with
      | none => simp at hl
      | some x => simp

/-- C7 (counterexample): `setConvexity(0)` is a call with an `int` argument
after which `getConvexity()` returns 0, which is not at least 1. -/
theorem setConvexity_zero_reads_back_zero :
    isInt 0 ∧ ¬ 1 ≤ Geometry.getConvexity (Geometry.setConvexity (Geometry.ctor ()) 0) := by
  decide

/-- C7 (amended): `getConvexity()` returns 1 on a freshly constructed node,
and after any sequence of `setConvexity(c)` calls with `int` arguments it
returns a value of at least 1 exactly when the last argument, if any, is not 0. -/
theorem convexity_positive_iff_last_nonzero {D : Type} (d : D) (cs : List Int)
    (hcs : ∀ c ∈ cs, isInt c) :
    Geometry.getConvexity (Geometry.ctor d) = 1 ∧
    (1 ≤ Geometry.getConvexity (cs.foldl Geometry.setConvexity (Geometry.ctor d)) ↔
      cs.getLast? ≠ some 0) := by
  refine ⟨rfl, ?_⟩
  unfold Geometry.getConvexity
  rw [(foldl_setConvexity cs (Geometry.ctor d)).1]
  cases hl : cs.getLast? with
  | none =>
    simp only [Option.getD_none, Geometry.ctor, ne_eq, not_false_eq_true, iff_true]
    decide
  | some c =>
    have hc : isInt c := hcs c (List.mem_of_getLast?_eq_some hl)
    simp only [Option.getD_some, ne_eq, Option.some.injEq]
    exact toUnsigned_pos_iff c hc

/-- C7 (witness): the amended statement at the calls `setConvexity(0); setConvexity(-3)`. -/
theorem convexity_positive_iff_last_nonzero_witness :
    (∀ c ∈ [(0 : Int), -3], isInt c) ∧
    (Geometry.getConvexity (Geometry.ctor ()) = 1 ∧
      (1 ≤ Geometry.getConvexity ([(0 : Int), -3].foldl Geometry.setConvexity (Geometry.ctor ())) ↔
        [(0 : Int), -3].getLast? ≠ some 0)) :=
  ⟨by decide, convexity_positive_iff_last_nonzero () [0, -3] (by decide)⟩

/-- C10: for every node and every 32-bit `int` c, after `setConvexity(c)` the
value of `getConvexity()` is c reduced modulo `2 ^ 32` as an unsigned value; it
equals c exactly when c is not negative, and is `c + 2 ^ 32` for a negative c;
the last of two calls wins; and the rest of the node is unchanged. -/
theorem setConvexity_then_getConvexity {D : Type} (g : Geometry D) (c : Int) (hc : isInt c) :
    ((Geometry.getConvexity (Geometry.setConvexity g c) : Nat) : Int) = c % 4294967296 ∧
    Geometry.getConvexity (Geometry.setConvexity g c) < 4294967296 ∧
    (((Geometry.getConvexity (Geometry.setConvexity g c) : Nat) : Int) = c ↔ 0 ≤ c) ∧
    (c < 0 → ((Geometry.getConvexity (Geometry.setConvexity g c) : Nat) : Int) = c + 4294967296) ∧
    (∀ c0 : Int, isInt c0 →
      Geometry.getConvexity (Geometry.setConvexity (Geometry.setConvexity g c0) c) =
        Geometry.getConvexity (Geometry.setConvexity g c)) ∧
    (Geometry.setConvexity g c).derived = g.derived := by
  have h := toUnsigned_cast c
  unfold isInt INT_MIN INT_MAX at hc
  simp only [Geometry.getConvexity, Geometry.setConvexity]
  refine ⟨h, ?_, ?_, ?_, ?_, trivial⟩
  · omega
  · omega
  · omega
  · intro c0 _
    trivial

/-- C10 (witness): `setConvexity(-1)` on a fresh node. -/
theorem setConvexity_then_getConvexity_witness :
    isInt (-1) ∧ Geometry.getConvexity (Geometry.setConvexity (Geometry.ctor ()) (-1)) = 4294967295 :=
  ⟨by decide, by
    have h := (setConvexity_then_getConvexity (Geometry.ctor ()) (-1) (by decide)).2.2.2.1 (by decide)
    omega⟩

/-! ## Properties of the Renderer enumerations -/

/-- C6: over the seven `csgmode_e` values, `m & CSGMODE_DIFFERENCE_FLAG` is
non-zero exactly for the three difference modes and 0 for the four others;
each difference mode is its base mode or-ed with the flag; clearing the flag
bit of a difference mode gives its base mode; the seven values are pairwise
distinct; and a mode is determined by its value with the flag cleared together
with its flag bit. -/
theorem csgmode_difference_flag_composition :
    (∀ m : csgmode_e, m.differenceBits ≠ 0 ↔
      (m = .CSGMODE_DIFFERENCE ∨ m = .CSGMODE_BACKGROUND_DIFFERENCE ∨
        m = .CSGMODE_HIGHLIGHT_DIFFERENCE)) ∧
    (csgmode_e.CSGMODE_NONE.differenceBits = 0 ∧ csgmode_e.CSGMODE_NORMAL.differenceBits = 0 ∧
      csgmode_e.CSGMODE_BACKGROUND.differenceBits = 0 ∧
      csgmode_e.CSGMODE_HIGHLIGHT.differenceBits = 0) ∧
    (csgmode_e.CSGMODE_DIFFERENCE.val =
        csgmode_e.CSGMODE_NORMAL.val ||| CSGMODE_DIFFERENCE_FLAG ∧
      csgmode_e.CSGMODE_BACKGROUND_DIFFERENCE.val =
        csgmode_e.CSGMODE_BACKGROUND.val ||| CSGMODE_DIFFERENCE_FLAG ∧
      csgmode_e.CSGMODE_HIGHLIGHT_DIFFERENCE.val =
        csgmode_e.CSGMODE_HIGHLIGHT.val ||| CSGMODE_DIFFERENCE_FLAG) ∧
    (csgmode_e.CSGMODE_DIFFERENCE.clearDifference = csgmode_e.CSGMODE_NORMAL.val ∧
      csgmode_e.CSGMODE_BACKGROUND_DIFFERENCE.clearDifference =
        csgmode_e.CSGMODE_BACKGROUND.val ∧
      csgmode_e.CSGMODE_HIGHLIGHT_DIFFERENCE.clearDifference =
        csgmode_e.CSGMODE_HIGHLIGHT.val) ∧
    (∀ m n : csgmode_e, m.val = n.val → m = n) ∧
    (∀ m n : csgmode_e, m.clearDifference = n.clearDifference →
      m.differenceBits = n.differenceBits → m = n) := by
  refine ⟨?_, by decide, by decide, by decide, ?_, ?_⟩
  · intro m
    cases m <;> decide
  · intro m n
    cases m <;> cases n <;> decide
  · intro m n
    cases m <;> cases n <;> decide

/-- C9 (counterexample): not every one of the five base colour modes has an
edges variant in the enumeration: `COLORMODE_NONE` has none. -/
theorem colormode_none_has_no_edges_variant :
    ¬ (∀ b ∈ ColorMode.baseModes, ∃ e : ColorMode, ColorMode.isEdgesVariantOf e b) := by
  intro h
  obtain ⟨e, he⟩ := h .COLORMODE_NONE (by decide)
  revert he
  cases e <;> decide

/-- C9 (amended): `ColorMode` has exactly nine values: the five base modes and
an edges variant of each base mode other than `COLORMODE_NONE`. Every value is
a base mode or the edges variant of one; each of MATERIAL, CUTOUT, HIGHLIGHT
and BACKGROUND has exactly one edges variant, which is not a base mode;
different base modes have different edges variants; and `COLORMODE_NONE` has
no edges variant. -/
theorem colormode_enumeration :
    (∀ m : ColorMode, m ∈ ColorMode.all) ∧ ColorMode.all.Nodup ∧ ColorMode.all.length = 9 ∧
    (∀ m n : ColorMode, m.val = n.val → m = n) ∧
    (∀ m : ColorMode, m ∈ ColorMode.baseModes ∨
      ∃ b ∈ ColorMode.baseModes, ColorMode.isEdgesVariantOf m b) ∧
    (∀ b ∈ ColorMode.baseModes, b ≠ ColorMode.COLORMODE_NONE →
      ∃ e : ColorMode, e ∉ ColorMode.baseModes ∧ ColorMode.isEdgesVariantOf e b ∧
        ∀ e2 : ColorMode, ColorMode.isEdgesVariantOf e2 b → e2 = e) ∧
    (∀ e b b2 : ColorMode, ColorMode.isEdgesVariantOf e b → ColorMode.isEdgesVariantOf e b2 →
      b = b2) ∧
    (¬ ∃ e : ColorMode, ColorMode.isEdgesVariantOf e .COLORMODE_NONE) := by
  refine ⟨?_, by decide, by decide, ?_, ?_, ?_, ?_, ?_⟩
  · intro m
    cases m <;> decide
  · intro m n
    cases m <;> cases n <;> decide
  · intro m
    cases m
    · left; decide
    · left; decide
    · left; decide
    · left; decide
    · left; decide
    · right; exact ⟨.COLORMODE_MATERIAL, by decide, by decide⟩
    · right; exact ⟨.COLORMODE_CUTOUT, by decide, by decide⟩
    · right; exact ⟨.COLORMODE_HIGHLIGHT, by decide, by decide⟩
    · right; exact ⟨.COLORMODE_BACKGROUND, by decide, by decide⟩
  · intro b hb hne
    cases b
    · exact absurd rfl hne
    · exact ⟨.COLORMODE_MATERIAL_EDGES, by decide, by decide, fun e2 => by cases e2 <;> decide⟩
    · exact ⟨.COLORMODE_CUTOUT_EDGES, by decide, by decide, fun e2 => by cases e2 <;> decide⟩
    · exact ⟨.COLORMODE_HIGHLIGHT_EDGES, by decide, by decide, fun e2 => by cases e2 <;> decide⟩
    · exact ⟨.COLORMODE_BACKGROUND_EDGES, by decide, by decide, fun e2 => by cases e2 <;> decide⟩
    · exact absurd hb (by decide)
    · exact absurd hb (by decide)
    · exact absurd hb (by decide)
    · exact absurd hb (by decide)
  · intro e b b2
    cases e <;> cases b <;> first | decide | (cases b2 <;> decide)
  · rintro ⟨e, he⟩
    revert he
    cases e <;> decide

/-! ## Properties of EvalContext -/

section EvalContextProps

variable {Expression Value ModuleInstantiation : Type}

/-- C1: for a context with n call arguments, any index i and any optional
context, `getArgName(i)` fails, on its assertion, if and only if `i >= n`, and
so does `getArgValue(i, ctx)`; for `i < n` both return, and `getArgName(i)` is
the name stored at position i of the argument sequence. -/
theorem getArg_fails_iff_index_out_of_range
    (env : Collaborators Expression Value ModuleInstantiation)
    (this : EvalContext Expression Value ModuleInstantiation) (i : Nat)
    (ctx : Option (ContextRef Expression Value ModuleInstantiation)) :
    (EvalContext.getArgName this i = .error .assertion ↔ this.eval_arguments.length ≤ i) ∧
    ((EvalContext.getArgValue env this i ctx).result = .error .assertion ↔
      this.eval_arguments.length ≤ i) ∧
    (∀ h : i < this.eval_arguments.length,
      EvalContext.getArgName this i = .ok (this.eval_arguments.get ⟨i, h⟩).first ∧
      ∃ v, (EvalContext.getArgValue env this i ctx).result = .ok v) := by
  have hname : ∀ h : i < this.eval_arguments.length,
      EvalContext.getArgName this i = .ok (this.eval_arguments.get ⟨i, h⟩).first := by
    intro h
    unfold EvalContext.getArgName
    simp only [h, dite_true]
  have hvalue : ∀ h : i < this.eval_arguments.length,
      ∃ v, (EvalContext.getArgValue env this i ctx).result = .ok v := by
    intro h
    unfold EvalContext.getArgValue
    simp only [h, dite_true]
    cases (this.eval_arguments.get ⟨i, h⟩).second <;> simp
  have hname2 : this.eval_arguments.length ≤ i →
      EvalContext.getArgName this i = .error .assertion := by
    intro h
    have h2 : ¬ i < this.eval_arguments.length := by omega
    unfold EvalContext.getArgName
    simp only [h2, dite_false]
  have hvalue2 : this.eval_arguments.length ≤ i →
      (EvalContext.getArgValue env this i ctx).result = .error .assertion := by
    intro h
    have h2 : ¬ i < this.eval_arguments.length := by omega
    unfold EvalContext.getArgValue
    simp only [h2, dite_false]
  refine ⟨⟨?_, hname2⟩, ⟨?_, hvalue2⟩, fun h => ⟨hname h, hvalue h⟩⟩
  · intro hfail
    by_contra hc
    rw [hname (by omega)] at hfail
    cases hfail
  · intro hfail
    by_contra hc
    obtain ⟨v, hv⟩ := hvalue (by omega)
    rw [hv] at hfail
    cases hfail

/-- C2: when argument i exists and its stored expression e is present,
`getArgValue(i, ctx)` returns e evaluated in `ctx` for a supplied `ctx` and e
evaluated in this context when none is supplied, evaluating e once and nothing
else; with a supplied `ctx` the whole outcome is the same for any other
context holding the same argument sequence. -/
theorem getArgValue_evaluates_in_chosen_context
    (env : Collaborators Expression Value ModuleInstantiation)
    (this : EvalContext Expression Value ModuleInstantiation) (i : Nat) (e : Expression)
    (hi : i < this.eval_arguments.length)
    (he : (this.eval_arguments.get ⟨i, hi⟩).second = some e) :
    (∀ ctx : ContextRef Expression Value ModuleInstantiation,
      (EvalContext.getArgValue env this i (some ctx)).result = .ok (env.evaluate e ctx) ∧
      (EvalContext.getArgValue env this i (some ctx)).events =
        [Event.print (argAccessMessage i), Event.evaluate e ctx]) ∧
    ((EvalContext.getArgValue env this i none).result = .ok (env.evaluate e (.eval this)) ∧
      (EvalContext.getArgValue env this i none).events =
        [Event.print (argAccessMessage i), Event.evaluate e (.eval this)]) ∧
    (∀ (other : EvalContext Expression Value ModuleInstantiation)
        (ctx : ContextRef Expression Value ModuleInstantiation),
      other.eval_arguments = this.eval_arguments →
      (EvalContext.getArgValue env other i (some ctx)).result =
          (EvalContext.getArgValue env this i (some ctx)).result ∧
        (EvalContext.getArgValue env other i (some ctx)).events =
          (EvalContext.getArgValue env this i (some ctx)).events) := by
  have key : ∀ (o : EvalContext Expression Value ModuleInstantiation)
      (c : Option (ContextRef Expression Value ModuleInstantiation)),
      o.eval_arguments = this.eval_arguments →
      (EvalContext.getArgValue env o i c).result =
          .ok (env.evaluate e (match c with | some x => x | none => .eval o)) ∧
        (EvalContext.getArgValue env o i c).events =
          [Event.print (argAccessMessage i),
            Event.evaluate e (match c with | some x => x | none => .eval o)] := by
    intro o c ho
    have hi2 : i < o.eval_arguments.length := by rw [ho]; exact hi
    have hsame : ∀ (l : List (Assignment Expression)) (_ : l = this.eval_arguments)
        (hl : i < l.length), (l.get ⟨i, hl⟩).second = some e := by
      intro l hl
      subst hl
      intro _
      exact he
    have he2 : (o.eval_arguments.get ⟨i, hi2⟩).second = some e := hsame _ ho hi2
    unfold EvalContext.getArgValue
    simp only [hi2, dite_true]
    split
    · rename_i e2 h2
      rw [he2] at h2
      cases h2
      exact ⟨rfl, rfl⟩
    · rename_i h2
      rw [he2] at h2
      cases h2
  refine ⟨fun ctx => key this (some ctx) rfl, key this none rfl, ?_⟩
  intro other ctx ho
  have h1 := key other (some ctx) ho
  have h2 := key this (some ctx) rfl
  exact ⟨h1.1.trans h2.1.symm, h1.2.trans h2.2.symm⟩

/-- C2 (witness): argument 0 of the sample call is the expression `x`; in the
callee context it evaluates to 7, in the calling context to 1. -/
theorem getArgValue_evaluates_in_chosen_context_witness :
    (EvalContext.getArgValue lookupEnv sampleCall 0 (some calleeContext)).result = .ok "7" ∧
    (EvalContext.getArgValue lookupEnv sampleCall 0 none).result = .ok "1" :=
  have h := getArgValue_evaluates_in_chosen_context lookupEnv sampleCall 0 "x"
    (by decide) rfl
  ⟨(h.1 calleeContext).1, h.2.1.1⟩

/-- C3: when argument i exists and its stored expression reference is absent,
`getArgValue(i, ctx)` returns the undefined `Value()` whatever `ctx` is, does
not fail, evaluates no expression, and does not depend on the evaluator. -/
theorem getArgValue_absent_expression_is_undefined
    (env : Collaborators Expression Value ModuleInstantiation)
    (this : EvalContext Expression Value ModuleInstantiation) (i : Nat)
    (hi : i < this.eval_arguments.length)
    (he : (this.eval_arguments.get ⟨i, hi⟩).second = none)
    (ctx : Option (ContextRef Expression Value ModuleInstantiation)) :
    (EvalContext.getArgValue env this i ctx).result = .ok env.undefined ∧
    (EvalContext.getArgValue env this i ctx).events = [Event.print (argAccessMessage i)] ∧
    (∀ (e : Expression) (c : ContextRef Expression Value ModuleInstantiation),
      Event.evaluate e c ∉ (EvalContext.getArgValue env this i ctx).events) ∧
    (∀ ev : Expression → ContextRef Expression Value ModuleInstantiation → Value,
      (EvalContext.getArgValue { env with evaluate := ev } this i ctx).result =
        .ok env.undefined) := by
  have key : ∀ env2 : Collaborators Expression Value ModuleInstantiation,
      (EvalContext.getArgValue env2 this i ctx).result = .ok env2.undefined ∧
      (EvalContext.getArgValue env2 this i ctx).events = [Event.print (argAccessMessage i)] := by
    intro env2
    unfold EvalContext.getArgValue
    simp only [hi, dite_true]
    split
    · rename_i e2 h2
      rw [he] at h2
      cases h2
    · exact ⟨rfl, rfl⟩
  refine ⟨(key env).1, (key env).2, ?_, fun ev => (key { env with evaluate := ev }).1⟩
  intro e c hmem
  rw [(key env).2] at hmem
  simp at hmem

/-- C3 (witness): argument 2 of the sample call has no expression. -/
theorem getArgValue_absent_expression_is_undefined_witness :
    (EvalContext.getArgValue lookupEnv sampleCall 2 (some calleeContext)).result = .ok "undef" ∧
    (EvalContext.getArgValue lookupEnv sampleCall 2 none).result = .ok "undef" :=
  ⟨(getArgValue_absent_expression_is_undefined lookupEnv sampleCall 2 (by decide) rfl
      (some calleeContext)).1,
   (getArgValue_absent_expression_is_undefined lookupEnv sampleCall 2 (by decide) rfl none).1⟩

/-- C4: for a context with no attached scope, `numChildren()` is 0 and
`getChild(i)` returns null, without failing, for every index i. -/
theorem no_scope_has_no_children
    (this : EvalContext Expression Value ModuleInstantiation) (h : this.scope = none) :
    EvalContext.numChildren this = 0 ∧ ∀ i : Nat, EvalContext.getChild this i = .ok none := by
  unfold EvalContext.numChildren EvalContext.getChild
  rw [h]
  exact ⟨rfl, fun _ => rfl⟩

/-- C4 (witness): the sample call without a scope, asked for children 0 and 5. -/
theorem no_scope_has_no_children_witness :
    sampleCallNoScope.scope = none ∧ EvalContext.numChildren sampleCallNoScope = 0 ∧
    EvalContext.getChild sampleCallNoScope 0 = .ok none ∧
    EvalContext.getChild sampleCallNoScope 5 = .ok none :=
  have h := no_scope_has_no_children sampleCallNoScope rfl
  ⟨rfl, h.1, h.2 0, h.2 5⟩

/-- C5: for a context whose attached scope has the child sequence cs,
`numChildren()` is the length of cs; `getChild(i)` returns exactly when
`i < numChildren()`, and then returns the element of cs at position i, so
that `getChild(0), ..., getChild(numChildren() - 1)` is cs in order; for
`i >= numChildren()` the unchecked access is out of range. -/
theorem children_of_attached_scope
    (this : EvalContext Expression Value ModuleInstantiation)
    (sc : LocalScope ModuleInstantiation) (h : this.scope = some sc) :
    EvalContext.numChildren this = sc.children.length ∧
    (∀ i : Nat, (∃ r, EvalContext.getChild this i = .ok r) ↔ i < EvalContext.numChildren this) ∧
    (∀ (i : Nat) (hi : i < sc.children.length),
      EvalContext.getChild this i = .ok (sc.children.get ⟨i, hi⟩)) ∧
    (∀ i : Nat, EvalContext.numChildren this ≤ i →
      EvalContext.getChild this i = .error .outOfRange) ∧
    (List.range (EvalContext.numChildren this)).map (EvalContext.getChild this) =
      sc.children.map Except.ok := by
  have hn : EvalContext.numChildren this = sc.children.length := by
    unfold EvalContext.numChildren; rw [h]
  have hin : ∀ (i : Nat) (hi : i < sc.children.length),
      EvalContext.getChild this i = .ok (sc.children.get ⟨i, hi⟩) := by
    intro i hi
    unfold EvalContext.getChild
    rw [h]
    simp only [hi, dite_true]
  have hout : ∀ i : Nat, sc.children.length ≤ i →
      EvalContext.getChild this i = .error .outOfRange := by
    intro i hi
    unfold EvalContext.getChild
    rw [h]
    have : ¬ i < sc.children.length := by omega
    simp only [this, dite_false]
  refine ⟨hn, ?_, hin, ?_, ?_⟩
  · intro i
    rw [hn]
    constructor
    · rintro ⟨r, hr⟩
      by_contra hc
      rw [hout i (by omega)] at hr
      cases hr
    · intro hi
      exact ⟨_, hin i hi⟩
  · intro i hi
    exact hout i (by omega)
  · rw [hn]
    apply List.ext_get
    · simp
    · intro n h1 h2
      simp only [List.length_map, List.length_range] at h1
      simp [hin n h1]

/-- C5 (witness): the sample call has the children `cube` and `sphere`. -/
theorem children_of_attached_scope_witness :
    EvalContext.numChildren sampleCall = 2 ∧
    EvalContext.getChild sampleCall 1 = .ok (some "sphere") ∧
    EvalContext.getChild sampleCall 2 = .error .outOfRange :=
  have h := children_of_attached_scope sampleCall ⟨[some "cube", some "sphere"]⟩ rfl
  ⟨h.1, h.2.2.1 1 (by decide), h.2.2.2.1 2 (by decide)⟩

/-- When every declared name is bound, the loop over the declared arguments leaves the map as it was. -/
theorem dumpModuleArgs_of_bound (env : Collaborators Expression Value ModuleInstantiation)
    (args : List (Assignment Expression)) (vars : List (String × Value))
    (h : ∀ a ∈ args, ∃ v, vars.lookup a.first = some v) :
    (dumpModuleArgs env args vars).2 = vars := by
  induction args with
  | nil => rfl
  | cons a rest ih =>
    obtain ⟨v, hv⟩ := h a (List.mem_cons_self a rest)
    have hs : (subscript env.undefined vars a.first).2 = vars := by
      unfold subscript
      rw [hv]
    simp only [dumpModuleArgs, hs]
    exact ih (fun b hb => h b (List.mem_cons_of_mem a hb))

/-- A `dump` that returns leaves the argument sequence, the scope, the parent
and the document path as they were; and the whole context when no module is
given, when the module is not a `Module`, or when every declared argument
name of the module is bound. -/
theorem dump_frame (env : Collaborators Expression Value ModuleInstantiation) (self : Nat)
    (this st : EvalContext Expression Value ModuleInstantiation)
    (mod : Option (AbstractModule Expression)) (inst : Option ModuleInstantiation) (out : String)
    (h : EvalContext.dump env self this mod inst = .ok (out, st)) :
    (st.eval_arguments = this.eval_arguments ∧ st.scope = this.scope ∧
      st.parent = this.parent ∧ st.document_path = this.document_path) ∧
    (mod = none → st = this) ∧ (mod = some .other → st = this) ∧
    (∀ m : Module Expression, mod = some (.Module m) →
      (∀ a ∈ m.definition_arguments, ∃ v, this.variables_.lookup a.first = some v) →
      st = this) := by
  unfold EvalContext.dump at h
  simp only at h
  split at h
  · cases h
  · split at h
    · rename_i m
      simp only [Except.ok.injEq, Prod.mk.injEq] at h
      obtain ⟨_, hst⟩ := h
      subst hst
      refine ⟨⟨rfl, rfl, rfl, rfl⟩, fun hm => (by cases hm), fun hm => (by cases hm), ?_⟩
      intro m2 hm hb
      cases hm
      rw [dumpModuleArgs_of_bound env _ _ hb]
    · rename_i hnot
      simp only [Except.ok.injEq, Prod.mk.injEq] at h
      obtain ⟨_, hst⟩ := h
      subst hst
      exact ⟨⟨rfl, rfl, rfl, rfl⟩, fun _ => rfl, fun _ => rfl, fun _ _ _ => rfl⟩

/-- C8 (the code at the failing input): `dump` of a context without bindings,
for a module that declares the argument `x`, returns, and leaves the context
with a binding of `x` to the undefined value that it did not have before. -/
theorem dump_inserts_binding_for_unbound_declared_argument :
    emptyContext.variables_ = [] ∧
    ∃ (out : String) (st : EvalContext String String String),
      EvalContext.dump lookupEnv 1 emptyContext (some moduleWithX) none = .ok (out, st) ∧
      st.variables_ = [("x", "undef")] ∧
      st.variables_.lookup "x" = some "undef" ∧ emptyContext.variables_.lookup "x" = none ∧
      st ≠ emptyContext :=
  ⟨rfl, _, _, rfl, rfl, by decide, by decide, by decide⟩

end EvalContextProps

end OpenSCAD
